import Mathlib

/-!
Verification of the plugin manifest / capability-schema conventions of the
`llm-module-pattern` repository.

The repository declares its capability I/O contracts as Zod schemas
(`src/plugins/*/config.ts`), static plugin manifests
(`tripPlannerPlugin`, `contentModerationPlugin`), tool groups
(`askUserTools`, `tripPlannerTools`), a text-parsing helper
(`parseAnalysis` in `src/plugins/research-bot/tools.ts`), the
`deepResearchTool` executor, and the `priorityProcessingStep` workflow
executor (`examples/branching-workflow/workflow.ts`).

This file gives a shallow embedding of those parts: a JSON value type, an
AST for the Zod schema fragment the repository uses, a validator mirroring
Zod `safeParse` semantics (defaults applied on missing keys, all issues
collected, paths naming the offending fields), and executable translations
of the relevant executors.
-/

/-- JSON-like runtime values exchanged across the capability boundary. -/
inductive Jsonv where
  | jnull
  | jbool (b : Bool)
  | jnum (q : ℚ)
  | jstr (s : String)
  | jarr (xs : List Jsonv)
  | jobj (fields : List (String × Jsonv))

/-- One Zod validation issue: a path of keys/indices naming the offending
field, and a human-readable message. -/
structure ZIssue where
  path : List String
  msg : String
  deriving DecidableEq, Repr

/-- How a field of a `z.object` shape treats a missing key: required
(`Required` issue), `.optional()` (key omitted from the output), or
`.default(v)` (the default is parsed through the field schema). -/
inductive FieldMode where
  | required
  | optional
  | dflt (v : Jsonv)

/-- The fragment of the Zod schema language used by the repository's
capability contracts: `z.string()`, `z.number()` (with optional
`.min`/`.max`), `z.boolean()`, `z.enum([...])`, `z.literal(s)`,
`z.array(t)` (with optional `.min`), `z.tuple([...])`, `z.object({...})`.
`.describe(...)` is metadata only and is not represented. -/
inductive ZType where
  | zstring
  | znumber (lo hi : Option ℚ)
  | zboolean
  | zenum (vals : List String)
  | zliteral (s : String)
  | zarray (elem : ZType) (minLen : Option Nat)
  | ztuple (elems : List ZType)
  | zobject (shape : List (String × FieldMode × ZType))

/-- Runtime type tag of a JSON value, as Zod reports it in
`invalid_type` messages. -/
def Jsonv.typeName : Jsonv → String
  | .jnull => "null"
  | .jbool _ => "boolean"
  | .jnum _ => "number"
  | .jstr _ => "string"
  | .jarr _ => "array"
  | .jobj _ => "object"

/-- Prepend a key (or index) to the path of every issue, as Zod does when
lifting a sub-schema issue into the enclosing object/array. -/
def prependPath (k : String) (es : List ZIssue) : List ZIssue :=
  es.map fun i => ⟨k :: i.path, i.msg⟩

/-- Fold one validated element result into the already-validated rest of
a `z.array`/`z.tuple` body: issues are index-prefixed, parsed elements are
kept in order. -/
def elemStep (i : Nat) (r : Except (List ZIssue) Jsonv)
    (rest : List ZIssue × List Jsonv) : List ZIssue × List Jsonv :=
  match r with
  | .ok y => (rest.1, y :: rest.2)
  | .error es => (prependPath (toString i) es ++ rest.1, rest.2)

/-- Fold one validated field result into the already-validated rest of a
`z.object` shape: issues are key-prefixed, parsed fields kept in shape
order. -/
def fieldStep (k : String) (r : Except (List ZIssue) Jsonv)
    (rest : List ZIssue × List (String × Jsonv)) :
    List ZIssue × List (String × Jsonv) :=
  match r with
  | .ok w => (rest.1, (k, w) :: rest.2)
  | .error es => (prependPath k es ++ rest.1, rest.2)

/-- Validation of one field of a `z.object` shape, given the lookup
result for its key, the field parser `pv`, and the already-validated rest
of the shape: a present key is parsed; a missing key yields a `Required`
issue, is skipped, or parses the declared default, per the field mode. -/
def lookupStep (k : String) (m : FieldMode)
    (pv : Jsonv → Except (List ZIssue) Jsonv) (lk : Option Jsonv)
    (rest : List ZIssue × List (String × Jsonv)) :
    List ZIssue × List (String × Jsonv) :=
  match lk with
  | some v => fieldStep k (pv v) rest
  | none =>
    match m with
    | .required => (⟨[k], "Required"⟩ :: rest.1, rest.2)
    | .optional => rest
    | .dflt d => fieldStep k (pv d) rest

mutual

/-- `validateType t v` mirrors Zod `safeParse` of schema `t` on value `v`:
`.ok` with the parsed value (defaults populated, unknown object keys
stripped, fields in shape order), or `.error` with all collected issues. -/
def validateType : ZType → Jsonv → Except (List ZIssue) Jsonv
  | .zstring, v =>
    match v with
    | .jstr s => .ok (.jstr s)
    | v => .error [⟨[], "Expected string, received " ++ v.typeName⟩]
  | .znumber lo hi, v =>
    match v with
    | .jnum q =>
      let esLo : List ZIssue :=
        match lo with
        | some m => if q < m then [⟨[], "Number too small"⟩] else []
        | none => []
      let esHi : List ZIssue :=
        match hi with
        | some m => if m < q then [⟨[], "Number too big"⟩] else []
        | none => []
      if (esLo ++ esHi).isEmpty then .ok (.jnum q) else .error (esLo ++ esHi)
    | v => .error [⟨[], "Expected number, received " ++ v.typeName⟩]
  | .zboolean, v =>
    match v with
    | .jbool b => .ok (.jbool b)
    | v => .error [⟨[], "Expected boolean, received " ++ v.typeName⟩]
  | .zenum vals, v =>
    match v with
    | .jstr s =>
      if vals.contains s then .ok (.jstr s)
      else .error [⟨[], "Invalid enum value: " ++ s⟩]
    | v => .error [⟨[], "Expected string, received " ++ v.typeName⟩]
  | .zliteral l, v =>
    match v with
    | .jstr s =>
      if s = l then .ok (.jstr s)
      else .error [⟨[], "Invalid literal value, expected " ++ l⟩]
    | v => .error [⟨[], "Expected string, received " ++ v.typeName⟩]
  | .zarray elem minLen, v =>
    match v with
    | .jarr xs =>
      let sizeIssues : List ZIssue :=
        match minLen with
        | some m => if xs.length < m then [⟨[], "Array too small"⟩] else []
        | none => []
      if (sizeIssues ++ (validateElems elem 0 xs).1).isEmpty then
        .ok (.jarr (validateElems elem 0 xs).2)
      else .error (sizeIssues ++ (validateElems elem 0 xs).1)
    | v => .error [⟨[], "Expected array, received " ++ v.typeName⟩]
  | .ztuple ts, v =>
    match v with
    | .jarr xs =>
      if xs.length = ts.length then
        if (validateTupleElems ts 0 xs).1.isEmpty then
          .ok (.jarr (validateTupleElems ts 0 xs).2)
        else .error (validateTupleElems ts 0 xs).1
      else .error [⟨[], "Invalid tuple length"⟩]
    | v => .error [⟨[], "Expected array, received " ++ v.typeName⟩]
  | .zobject shape, v =>
    match v with
    | .jobj fields =>
      if (validateShape shape fields).1.isEmpty then
        .ok (.jobj (validateShape shape fields).2)
      else .error (validateShape shape fields).1
    | v => .error [⟨[], "Expected object, received " ++ v.typeName⟩]
termination_by t v => (sizeOf t, 0)
decreasing_by all_goals (simp_wf <;> omega)

/-- Element-wise validation of a `z.array` body, collecting all issues
with index-prefixed paths and all successfully parsed elements. -/
def validateElems (elem : ZType) (i : Nat) : List Jsonv → (List ZIssue × List Jsonv)
  | [] => ([], [])
  | x :: xs => elemStep i (validateType elem x) (validateElems elem (i + 1) xs)
termination_by xs => (sizeOf elem, sizeOf xs + 1)
decreasing_by all_goals (simp_wf <;> omega)

/-- Position-wise validation of a `z.tuple` body (lengths already known
equal when called). -/
def validateTupleElems : List ZType → Nat → List Jsonv → (List ZIssue × List Jsonv)
  | [], _, _ => ([], [])
  | _ :: _, _, [] => ([], [])
  | t :: ts, i, x :: xs => elemStep i (validateType t x) (validateTupleElems ts (i + 1) xs)
termination_by ts _ xs => (sizeOf ts, sizeOf xs + 1)
decreasing_by all_goals (simp_wf <;> omega)

/-- Field-wise validation of a `z.object` shape against the supplied
fields: missing required keys yield a `Required` issue at path `[key]`,
missing defaulted keys parse the declared default, missing optional keys
are skipped, present keys are validated with key-prefixed issue paths.
Output fields appear in shape order; unknown input keys are stripped. -/
def validateShape : List (String × FieldMode × ZType) → List (String × Jsonv) →
    (List ZIssue × List (String × Jsonv))
  | [], _ => ([], [])
  | (k, m, t) :: restShape, fields =>
    lookupStep k m (fun v => validateType t v) (List.lookup k fields)
      (validateShape restShape fields)
termination_by shape _ => (sizeOf shape, 0)
decreasing_by all_goals (simp_wf <;> omega)

end

/-! ### Declared capability schemas

Translated from `src/plugins/ask-user-for-stuff/config.ts`,
`src/plugins/trip-planner/config.ts`, and
`src/skills/mastra-plugin/examples/research-bot/config.ts` (the config
imported by `src/plugins/research-bot/tools.ts`). -/

/-- `confirmationInputSchema` (ask-user-for-stuff/config.ts:14-20). -/
def confirmationInputSchema : ZType :=
  .zobject [
    ("title", .required, .zstring),
    ("message", .required, .zstring),
    ("confirmLabel", .dflt (.jstr "Confirm"), .zstring),
    ("cancelLabel", .dflt (.jstr "Cancel"), .zstring),
    ("variant", .dflt (.jstr "default"), .zenum ["default", "warning", "danger"])]

/-- `confirmationOutputSchema` (ask-user-for-stuff/config.ts:22-25). -/
def confirmationOutputSchema : ZType :=
  .zobject [
    ("confirmed", .required, .zboolean),
    ("timestamp", .required, .zstring)]

/-- `multipleChoiceInputSchema` (ask-user-for-stuff/config.ts:34-45). -/
def multipleChoiceInputSchema : ZType :=
  .zobject [
    ("question", .required, .zstring),
    ("options", .required,
      .zarray (.zobject [
        ("id", .required, .zstring),
        ("label", .required, .zstring),
        ("description", .optional, .zstring),
        ("icon", .optional, .zstring)]) (some 2)),
    ("allowMultiple", .dflt (.jbool false), .zboolean)]

/-- `multipleChoiceOutputSchema` (ask-user-for-stuff/config.ts:47-50). -/
def multipleChoiceOutputSchema : ZType :=
  .zobject [
    ("selected", .required, .zarray .zstring none),
    ("timestamp", .required, .zstring)]

/-- `textInputSchema` (ask-user-for-stuff/config.ts:59-64). -/
def textInputSchema : ZType :=
  .zobject [
    ("prompt", .required, .zstring),
    ("placeholder", .optional, .zstring),
    ("multiline", .dflt (.jbool false), .zboolean),
    ("required", .dflt (.jbool true), .zboolean)]

/-- `textOutputSchema` (ask-user-for-stuff/config.ts:66-69). -/
def textOutputSchema : ZType :=
  .zobject [
    ("value", .required, .zstring),
    ("timestamp", .required, .zstring)]

/-- `weatherInputSchema` (trip-planner/config.ts:19-21). -/
def weatherInputSchema : ZType :=
  .zobject [("location", .required, .zstring)]

/-- `weatherOutputSchema` (trip-planner/config.ts:23-39). -/
def weatherOutputSchema : ZType :=
  .zobject [
    ("location", .required, .zstring),
    ("temperature", .required, .znumber none none),
    ("feelsLike", .required, .znumber none none),
    ("description", .required, .zstring),
    ("humidity", .required, .znumber none none),
    ("windSpeed", .required, .znumber none none),
    ("uvIndex", .required, .znumber none none),
    ("forecast", .required,
      .zarray (.zobject [
        ("date", .required, .zstring),
        ("high", .required, .znumber none none),
        ("low", .required, .znumber none none),
        ("description", .required, .zstring)]) none)]

/-- `placesInputSchema` (trip-planner/config.ts:48-53). -/
def placesInputSchema : ZType :=
  .zobject [
    ("location", .required, .zstring),
    ("category", .required,
      .zenum ["attractions", "restaurants", "hotels", "activities"]),
    ("limit", .dflt (.jnum 5), .znumber none none)]

/-- `placesOutputSchema` (trip-planner/config.ts:55-67). -/
def placesOutputSchema : ZType :=
  .zobject [
    ("location", .required, .zstring),
    ("category", .required, .zstring),
    ("places", .required,
      .zarray (.zobject [
        ("name", .required, .zstring),
        ("description", .required, .zstring),
        ("rating", .optional, .znumber none none),
        ("priceLevel", .optional, .zstring),
        ("tags", .required, .zarray .zstring none)]) none)]

/-- `geojsonInputSchema` (trip-planner/config.ts:76-87). -/
def geojsonInputSchema : ZType :=
  .zobject [
    ("location", .required, .zstring),
    ("points", .required,
      .zarray (.zobject [
        ("name", .required, .zstring),
        ("description", .optional, .zstring),
        ("lat", .required, .znumber none none),
        ("lng", .required, .znumber none none),
        ("type", .dflt (.jstr "other"),
          .zenum ["attraction", "restaurant", "hotel", "activity", "other"])]) none)]

/-- `geojsonOutputSchema` (trip-planner/config.ts:89-108). -/
def geojsonOutputSchema : ZType :=
  .zobject [
    ("location", .required, .zstring),
    ("geojson", .required,
      .zobject [
        ("type", .required, .zliteral "FeatureCollection"),
        ("features", .required,
          .zarray (.zobject [
            ("type", .required, .zliteral "Feature"),
            ("properties", .required,
              .zobject [
                ("name", .required, .zstring),
                ("description", .optional, .zstring),
                ("markerType", .required, .zstring)]),
            ("geometry", .required,
              .zobject [
                ("type", .required, .zliteral "Point"),
                ("coordinates", .required,
                  .ztuple [.znumber none none, .znumber none none])])]) none)]),
    ("viewerUrl", .required, .zstring),
    ("pointCount", .required, .znumber none none)]

/-- `researchInputSchema` (research-bot/config.ts:14-18). -/
def researchInputSchema : ZType :=
  .zobject [
    ("topic", .required, .zstring),
    ("depth", .dflt (.jstr "standard"), .zenum ["quick", "standard", "deep"])]

/-- `researchOutputSchema` (research-bot/config.ts:20-29). -/
def researchOutputSchema : ZType :=
  .zobject [
    ("topic", .required, .zstring),
    ("summary", .required, .zstring),
    ("keyFindings", .required,
      .zarray (.zobject [
        ("point", .required, .zstring),
        ("importance", .required, .zenum ["high", "medium", "low"])]) none),
    ("relatedTopics", .required, .zarray .zstring none),
    ("confidence", .required, .znumber (some 0) (some 1))]

/-- The capability input schemas declared by the example plugins under
`src/plugins/` (ask-user-for-stuff, trip-planner, research-bot). -/
def declaredInputSchemas : List ZType :=
  [confirmationInputSchema, multipleChoiceInputSchema, textInputSchema,
   weatherInputSchema, placesInputSchema, geojsonInputSchema,
   researchInputSchema]

/-- All capability input and output schemas declared by the example
plugins under `src/plugins/`. -/
def declaredSchemas : List ZType :=
  declaredInputSchemas ++
  [confirmationOutputSchema, multipleChoiceOutputSchema, textOutputSchema,
   weatherOutputSchema, placesOutputSchema, geojsonOutputSchema,
   researchOutputSchema]

/-! ### Plugin manifests and tool groups -/

/-- The `features` map asserted by a plugin manifest
(tools/agents/ui/processors/storage flags). -/
structure PluginFeatures where
  tools : Bool
  agents : Bool
  ui : Bool
  processors : Bool
  storage : Bool
  deriving DecidableEq, Repr

/-- A plugin manifest: identity plus the capability groups it declares.
A group the manifest does not declare is `none`. (The `schemas` map the
trip-planner manifest additionally re-exports is the schema set defined
above and is not duplicated here.) -/
structure PluginManifest where
  id : String
  name : String
  version : String
  features : PluginFeatures
  toolIds : Option (List String)
  agentIds : Option (List String)
  uiComponents : Option (List (String × String))
  processorIds : Option (List String)
  storageIds : Option (List String)

/-- `tripPlannerPlugin` (trip-planner/config.ts:129-178): tools, agents
and UI components are declared; no processors and no storage group. -/
def tripPlannerPlugin : PluginManifest :=
  { id := "trip-planner"
    name := "Trip Planner Plugin"
    version := "1.0.0"
    features :=
      { tools := true, agents := true, ui := true,
        processors := false, storage := false }
    toolIds := some ["getWeather", "findPlaces", "generateMap"]
    agentIds := some ["trip-planner"]
    uiComponents := some [
      ("tool-getWeather", "WeatherCard"),
      ("tool-findPlaces", "PlacesCard"),
      ("tool-generateMap", "GeoJsonCard")]
    processorIds := none
    storageIds := none }

/-- `contentModerationPlugin` (content-moderation/config.ts): only
processors are declared. -/
def contentModerationPlugin : PluginManifest :=
  { id := "content-moderation"
    name := "Content Moderation Plugin"
    version := "1.0.0"
    features :=
      { tools := false, agents := false, ui := false,
        processors := true, storage := false }
    toolIds := none
    agentIds := none
    uiComponents := none
    processorIds := some [
      "basicModeration", "layeredSecurity", "inputModeration",
      "outputModeration", "ProfanityFilter", "ResponseLengthGuard"]
    storageIds := none }

/-- The plugin manifests defined in the repository. -/
def repoManifests : List PluginManifest :=
  [tripPlannerPlugin, contentModerationPlugin]

/-- A tool definition as produced by `createTool`: its dispatch id and its
declared input/output schemas. -/
structure MTool where
  id : String
  inputSchema : ZType
  outputSchema : ZType

/-- `confirmationTool` (ask-user-for-stuff/tools.ts:21-45). -/
def confirmationTool : MTool :=
  ⟨"askForConfirmation", confirmationInputSchema, confirmationOutputSchema⟩

/-- `multipleChoiceTool` (ask-user-for-stuff/tools.ts:53-70). -/
def multipleChoiceTool : MTool :=
  ⟨"askMultipleChoice", multipleChoiceInputSchema, multipleChoiceOutputSchema⟩

/-- `textInputTool` (ask-user-for-stuff/tools.ts:77-93). -/
def textInputTool : MTool :=
  ⟨"askForText", textInputSchema, textOutputSchema⟩

/-- `askUserTools` (ask-user-for-stuff/tools.ts:96-100): the tool group
exported by the ask-user-for-stuff plugin. -/
def askUserTools : List MTool :=
  [confirmationTool, multipleChoiceTool, textInputTool]

/-- The tool ids of `tripPlannerTools`
(skills/mastra-plugin/examples/trip-planner/tools.ts:199-205): the group
exports `weatherTool` (id `getWeather`), `placesTool` (id `findPlaces`)
and `geojsonTool` (id `generateMap`). -/
def tripPlannerToolGroupIds : List String :=
  ["getWeather", "findPlaces", "generateMap"]

/-- A manifest capability-group is "present and non-empty". -/
def groupNonempty {α : Type} (g : Option (List α)) : Bool :=
  match g with
  | some (_ :: _) => true
  | _ => false

/-- A manifest capability-group is absent or empty. -/
def groupAbsentOrEmpty {α : Type} (g : Option (List α)) : Bool :=
  match g with
  | none => true
  | some [] => true
  | some (_ :: _) => false

/-- One feature flag is consistent with its capability group: asserting
`true` means the group is non-empty, asserting `false` means it is absent
or empty. -/
def flagMatchesGroup {α : Type} (flag : Bool) (g : Option (List α)) : Bool :=
  if flag then groupNonempty g else groupAbsentOrEmpty g

/-- Every feature flag of a manifest is consistent with the corresponding
capability group. -/
def manifestFlagsOk (m : PluginManifest) : Bool :=
  flagMatchesGroup m.features.tools m.toolIds &&
  flagMatchesGroup m.features.agents m.agentIds &&
  flagMatchesGroup m.features.ui m.uiComponents &&
  flagMatchesGroup m.features.processors m.processorIds &&
  flagMatchesGroup m.features.storage m.storageIds

/-! ### `parseAnalysis` (src/plugins/research-bot/tools.ts:127-187)

The JavaScript helper works on strings with `String.prototype` methods and
a handful of regular expressions. We embed it over `List Char`, with each
regex operation translated to an explicit scanner that follows the
leftmost-match, greedy-with-backtracking semantics of the JS engine. -/

/-- JavaScript `\s` / `String.prototype.trim` whitespace. -/
def isJsWhitespace (c : Char) : Bool :=
  c == ' ' || c == '\t' || c == '\n' || c == '\r' ||
  c == Char.ofNat 11 || c == Char.ofNat 12 ||
  c == Char.ofNat 160 || c == Char.ofNat 0xFEFF ||
  c == Char.ofNat 0x2028 || c == Char.ofNat 0x2029

/-- JavaScript line terminators (the characters `.` does not match). -/
def isLineTerminator (c : Char) : Bool :=
  c == '\n' || c == '\r' || c == Char.ofNat 0x2028 || c == Char.ofNat 0x2029

/-- `String.prototype.trim`. -/
def jsTrim (s : List Char) : List Char :=
  ((s.dropWhile isJsWhitespace).reverse.dropWhile isJsWhitespace).reverse

/-- `text.split('\n')` (every separator splits; empty pieces kept). -/
def splitLinesAux : List Char → List Char → List (List Char)
  | [], acc => [acc.reverse]
  | c :: r, acc =>
    if c = '\n' then acc.reverse :: splitLinesAux r []
    else splitLinesAux r (c :: acc)

/-- `text.split('\n')`. -/
def splitLines (s : List Char) : List (List Char) := splitLinesAux s []

/-- `hay.includes(needle)`. -/
def containsSub (needle hay : List Char) : Bool :=
  hay.tails.any fun t => needle.isPrefixOf t

/-- `s.toLowerCase()` (ASCII case folding suffices for the markers the
code searches for). -/
def toLowerList (s : List Char) : List Char := s.map Char.toLower

/-- Strip `pat` from the head of `s`, comparing case-insensitively
(the `/i` flag). -/
def ciStripPrefixChars : List Char → List Char → Option (List Char)
  | [], s => some s
  | _ :: _, [] => none
  | m :: ms, c :: cs =>
    if c.toLower = m.toLower then ciStripPrefixChars ms cs else none

/-- Consume one optional literal character (`c?` at the end of a pattern,
where greedy matching just takes the character when present). -/
def dropIfHead (c : Char) : List Char → List Char
  | [] => []
  | x :: r => if x = c then r else x :: r

/-- After the leading `\*?\*?` alternatives, match
`MARKER\*?\*?:?` case-insensitively and return the rest of the input. -/
def matchAfterStars (marker s : List Char) : Option (List Char) :=
  match ciStripPrefixChars marker s with
  | some rest => some (dropIfHead ':' (dropIfHead '*' (dropIfHead '*' rest)))
  | none => none

/-- Attempt `/\*?\*?MARKER\*?\*?:?/i` at the current position, trying the
greedy star alternatives first (two stars, then one, then none), as the
JS engine does. -/
def matchMarkerAt (marker s : List Char) : Option (List Char) :=
  match s with
  | c1 :: rest1 =>
    if c1 = '*' then
      match rest1 with
      | c2 :: rest2 =>
        if c2 = '*' then
          (matchAfterStars marker rest2).orElse fun _ =>
            (matchAfterStars marker rest1).orElse fun _ =>
              matchAfterStars marker s
        else
          (matchAfterStars marker rest1).orElse fun _ =>
            matchAfterStars marker s
      | [] =>
        (matchAfterStars marker rest1).orElse fun _ =>
          matchAfterStars marker s
    else matchAfterStars marker s
  | [] => matchAfterStars marker []

theorem ciStripPrefixChars_length {m s t : List Char}
    (h : ciStripPrefixChars m s = some t) : t.length + m.length = s.length := by
  induction m generalizing s with
  | nil => simp [ciStripPrefixChars] at h; simp [h]
  | cons c ms ih =>
    match s with
    | [] => simp [ciStripPrefixChars] at h
    | x :: xs =>
      simp only [ciStripPrefixChars] at h
      split at h
      · have := ih h
        simp [List.length_cons]
        omega
      · exact absurd h (by simp)

theorem dropIfHead_length_le (c : Char) (s : List Char) :
    (dropIfHead c s).length ≤ s.length := by
  match s with
  | [] => simp [dropIfHead]
  | x :: r =>
    simp only [dropIfHead]
    split <;> simp

theorem matchAfterStars_length {marker s u : List Char}
    (h : matchAfterStars marker s = some u) :
    u.length + marker.length ≤ s.length := by
  unfold matchAfterStars at h
  split at h
  case h_1 rest hs =>
    have h1 := ciStripPrefixChars_length hs
    have h2 := dropIfHead_length_le '*' rest
    have h3 := dropIfHead_length_le '*' (dropIfHead '*' rest)
    have h4 := dropIfHead_length_le ':' (dropIfHead '*' (dropIfHead '*' rest))
    simp only [Option.some.injEq] at h
    subst h
    omega
  case h_2 => exact absurd h (by simp)

theorem orElseSome {α : Type} {o o' : Option α} {x : α}
    (h : (o.orElse fun _ => o') = some x) : o = some x ∨ o' = some x := by
  cases o
  · exact Or.inr h
  · exact Or.inl h

theorem matchMarkerAt_exists {marker s u : List Char}
    (h : matchMarkerAt marker s = some u) :
    ∃ t : List Char, matchAfterStars marker t = some u ∧ t.length ≤ s.length := by
  unfold matchMarkerAt at h
  match s with
  | [] => exact ⟨[], h, le_rfl⟩
  | c1 :: rest1 =>
    simp only at h
    split at h
    · cases rest1 with
      | cons c2 rest2 =>
        simp only at h
        split at h
        · rcases orElseSome h with h' | h'
          · exact ⟨rest2, h', by simp [List.length_cons]; omega⟩
          rcases orElseSome h' with h'' | h''
          · exact ⟨c2 :: rest2, h'', by simp [List.length_cons]⟩
          · exact ⟨c1 :: c2 :: rest2, h'', le_rfl⟩
        · rcases orElseSome h with h' | h'
          · exact ⟨c2 :: rest2, h', by simp [List.length_cons]⟩
          · exact ⟨c1 :: c2 :: rest2, h', le_rfl⟩
      | nil =>
        simp only at h
        rcases orElseSome h with h' | h'
        · exact ⟨[], h', by simp⟩
        · exact ⟨[c1], h', le_rfl⟩
    · exact ⟨c1 :: rest1, h, le_rfl⟩

theorem matchMarkerAt_length {marker s u : List Char}
    (hm : marker ≠ []) (h : matchMarkerAt marker s = some u) :
    u.length < s.length := by
  have hmlen : 0 < marker.length := List.length_pos.mpr hm
  obtain ⟨t, ht, hle⟩ := matchMarkerAt_exists h
  have := matchAfterStars_length ht
  omega

/-- `s.replace(/\*?\*?MARKER\*?\*?:?/gi, '')`: remove every
(non-overlapping, leftmost) match. The marker is passed head/tail so it
is non-empty by construction. -/
def replaceMarkerAll (m0 : Char) (ms : List Char) (s : List Char) : List Char :=
  match s with
  | [] => []
  | c :: rest =>
    match h : matchMarkerAt (m0 :: ms) (c :: rest) with
    | some after => replaceMarkerAll m0 ms after
    | none => c :: replaceMarkerAll m0 ms rest
termination_by s.length
decreasing_by
  · exact matchMarkerAt_length (by simp) h
  · simp [List.length_cons]

/-- The character class `[-*•\d.)]`. -/
def isBulletClassChar (c : Char) : Bool :=
  c == '-' || c == '*' || c == '•' || c.isDigit || c == '.' || c == ')'

/-- `s.replace(/^[-*•\d.)]+\s*/, '')`: strip one leading run of bullet
characters together with the following whitespace run (the class is
disjoint from `\s`, so greedy matching strips both maximal runs). -/
def stripBulletRunWsStar (s : List Char) : List Char :=
  if (s.takeWhile isBulletClassChar).isEmpty then s
  else (s.dropWhile isBulletClassChar).dropWhile isJsWhitespace

/-- `s.replace(/^[-*•\d.)]+\s+/, '')`: like the previous strip, but the
match requires at least one whitespace character after the run. -/
def stripBulletRunWsPlus (s : List Char) : List Char :=
  let run := s.takeWhile isBulletClassChar
  let rest := s.dropWhile isBulletClassChar
  if run.isEmpty then s
  else
    match rest with
    | c :: r => if isJsWhitespace c then r.dropWhile isJsWhitespace else s
    | [] => s

/-- `/^[-*•]\s+/.test(s)`. -/
def bulletTest1 (s : List Char) : Bool :=
  match s with
  | c :: d :: _ => (c == '-' || c == '*' || c == '•') && isJsWhitespace d
  | _ => false

/-- `/^\d+[.)]\s+/.test(s)` (digits are not `.` or `)`, so the greedy
digit run cannot backtrack into a successful match elsewhere). -/
def bulletTest2 (s : List Char) : Bool :=
  let run := s.takeWhile Char.isDigit
  let rest := s.dropWhile Char.isDigit
  !run.isEmpty &&
    (match rest with
     | c :: d :: _ => (c == '.' || c == ')') && isJsWhitespace d
     | _ => false)

/-- `s.match(/(\d+)\s*%/)`: the captured digit group of the leftmost
match, if any (a digit run followed, modulo whitespace, by a percent
sign). -/
def findPercentNumber : List Char → Option (List Char)
  | [] => none
  | c :: rest =>
    if c.isDigit then
      let run := (c :: rest).takeWhile Char.isDigit
      let after := ((c :: rest).dropWhile Char.isDigit).dropWhile isJsWhitespace
      match after with
      | '%' :: _ => some run
      | _ => findPercentNumber rest
    else findPercentNumber rest

/-- `parseInt(digits, 10)` for a non-empty decimal digit string. -/
def digitsToNat (ds : List Char) : Nat :=
  ds.foldl (fun n c => n * 10 + (c.toNat - '0'.toNat)) 0

/-- The backtracking of `\s*` before `(.+)`: try capturing after `k`
consumed whitespace characters, giving whitespace back one character at a
time until the capture (`.` up to the first line terminator) is
non-empty. -/
def captureFromDrop (r : List Char) : Nat → Option (List Char)
  | 0 =>
    let cap := r.takeWhile fun c => !isLineTerminator c
    if cap.isEmpty then none else some cap
  | k + 1 =>
    let cap := (r.drop (k + 1)).takeWhile fun c => !isLineTerminator c
    if cap.isEmpty then captureFromDrop r k else some cap

/-- `s.match(/:\s*(.+)/)`: the captured group of the leftmost match. -/
def matchColonCapture : List Char → Option (List Char)
  | [] => none
  | c :: rest =>
    if c = ':' then
      match captureFromDrop rest (rest.takeWhile isJsWhitespace).length with
      | some cap => some cap
      | none => matchColonCapture rest
    else matchColonCapture rest

/-- `cap.split(/[,;]/)`. -/
def splitCommaSemiAux : List Char → List Char → List (List Char)
  | [], acc => [acc.reverse]
  | c :: r, acc =>
    if c = ',' ∨ c = ';' then acc.reverse :: splitCommaSemiAux r []
    else splitCommaSemiAux r (c :: acc)

/-- `cap.split(/[,;]/)`. -/
def splitCommaSemi (s : List Char) : List (List Char) := splitCommaSemiAux s []

/-- `[...new Set(xs)]`: deduplicate keeping first occurrences in order. -/
def jsSetDedupAux (seen : List (List Char)) : List (List Char) → List (List Char)
  | [] => []
  | x :: r =>
    if x ∈ seen then jsSetDedupAux seen r
    else x :: jsSetDedupAux (x :: seen) r

/-- One entry of `parseAnalysis`'s `findings` array. -/
structure ResearchFinding where
  point : List Char
  importance : String

/-- The mutable state of the `for (const line of lines)` loop in
`parseAnalysis`. -/
structure AnalysisState where
  findings : List ResearchFinding
  relatedTopics : List (List Char)
  confidence : ℚ

/-- The HIGH/MEDIUM/LOW `if`/`else if` chain of the loop body
(tools.ts:142-151). -/
def processLineFindings (findings : List ResearchFinding) (trimmed : List Char) :
    List ResearchFinding :=
  if containsSub "HIGH".data trimmed then
    let point := jsTrim (stripBulletRunWsStar (replaceMarkerAll 'H' "IGH".data trimmed))
    if point.length > 10 then findings ++ [⟨point, "high"⟩] else findings
  else if containsSub "MEDIUM".data trimmed then
    let point := jsTrim (stripBulletRunWsStar (replaceMarkerAll 'M' "EDIUM".data trimmed))
    if point.length > 10 then findings ++ [⟨point, "medium"⟩] else findings
  else if containsSub "LOW".data trimmed then
    let point := jsTrim (stripBulletRunWsStar (replaceMarkerAll 'L' "OW".data trimmed))
    if point.length > 10 then findings ++ [⟨point, "low"⟩] else findings
  else findings

/-- The confidence-percentage extraction of the loop body
(tools.ts:154-157). -/
def processLineConfidence (confidence : ℚ) (trimmed : List Char) : ℚ :=
  match findPercentNumber trimmed with
  | some digits =>
    if containsSub "confiden".data (toLowerList trimmed) then
      (digitsToNat digits : ℚ) / 100
    else confidence
  | none => confidence

/-- The related-topics extraction of the loop body (tools.ts:160-166). -/
def processLineRelated (topics : List (List Char)) (trimmed : List Char) :
    List (List Char) :=
  if containsSub "related".data (toLowerList trimmed) ||
      containsSub "connection".data (toLowerList trimmed) then
    match matchColonCapture trimmed with
    | some cap =>
      topics ++ (((splitCommaSemi cap).map jsTrim).filter fun t => t.length > 2)
    | none => topics
  else topics

/-- The main `for (const line of lines)` loop of `parseAnalysis`. -/
def analysisLoop : List (List Char) → AnalysisState → AnalysisState
  | [], st => st
  | line :: rest, st =>
    let trimmed := jsTrim line
    analysisLoop rest
      { findings := processLineFindings st.findings trimmed
        relatedTopics := processLineRelated st.relatedTopics trimmed
        confidence := processLineConfidence st.confidence trimmed }

/-- The bullet-point fallback loop (tools.ts:170-180), run only when the
main loop produced no findings. -/
def fallbackFindings : List (List Char) → List ResearchFinding
  | [] => []
  | line :: rest =>
    let trimmed := jsTrim line
    if bulletTest1 trimmed || bulletTest2 trimmed then
      let point := stripBulletRunWsPlus trimmed
      if point.length > 15 then ⟨point, "medium"⟩ :: fallbackFindings rest
      else fallbackFindings rest
    else fallbackFindings rest

/-- The structured result of `parseAnalysis`. -/
structure ParsedAnalysis where
  findings : List ResearchFinding
  relatedTopics : List (List Char)
  confidence : ℚ

/-- The findings accumulated by the main loop alone (before the fallback
and the final `slice`/`Set`/clamp). -/
def mainLoopState (text : List Char) : AnalysisState :=
  analysisLoop (splitLines text) ⟨[], [], 7 / 10⟩

/-- `parseAnalysis` (tools.ts:127-187). -/
def parseAnalysis (text : List Char) : ParsedAnalysis :=
  let lines := splitLines text
  let st := analysisLoop lines ⟨[], [], 7 / 10⟩
  let findings := if st.findings.isEmpty then fallbackFindings lines else st.findings
  ⟨findings.take 6, (jsSetDedupAux [] st.relatedTopics).take 4,
    max 0 (min 1 st.confidence)⟩

/-! ### `deepResearchTool.execute` (src/plugins/research-bot/tools.ts:17-122)

The executor is asynchronous and streams progress events; the embedding
keeps its decision structure: the nested-agent lookup, the prompt built
from the research depth, and the structured output assembled from
`parseAnalysis` of the expert agent's final text. A registered agent is
modelled as the function from the prompt to its final streamed text. -/

/-- Validated `researchInputSchema` data. -/
structure ResearchInput where
  topic : String
  depth : String

/-- The `depthPrompts` lookup table (tools.ts:52-56); indexing an absent
key in JS yields `undefined`. -/
def depthPrompts (depth : String) : String :=
  if depth = "quick" then
    "Provide a brief 2-3 sentence overview of the key points."
  else if depth = "standard" then
    "Analyze the topic thoroughly, covering main aspects and implications."
  else if depth = "deep" then
    "Conduct an exhaustive analysis covering all angles, historical context, current state, future implications, and potential controversies."
  else "undefined"

/-- The expert prompt template (tools.ts:58-71), after `.trim()`. -/
def expertPrompt (input : ResearchInput) : String :=
  "You are analyzing the topic: \"" ++ input.topic ++ "\"\n\n" ++
  "Research depth: " ++ input.depth ++ "\n" ++
  depthPrompts input.depth ++ "\n\n" ++
  "Structure your analysis as:\n" ++
  "1. **Overview**: What is this topic about?\n" ++
  "2. **Key Findings**: The most important points (mark each as HIGH/MEDIUM/LOW importance)\n" ++
  "3. **Connections**: Related topics worth exploring\n" ++
  "4. **Confidence**: How confident are you in this analysis? (0-100%)\n\n" ++
  "Think step by step and be thorough."

/-- The structured output the executor returns (tools.ts:114-120). -/
structure DeepResearchOutput where
  topic : String
  summary : List Char
  keyFindings : List ResearchFinding
  relatedTopics : List (List Char)
  confidence : ℚ

/-- The error message thrown when the nested expert agent is not
registered (tools.ts:46). -/
def expertAgentMissingMsg : String :=
  "Expert agent not available. Make sure it is registered with Mastra."

/-- `deepResearchTool.execute`: look up the nested `expert-agent`
collaborator; if it is absent, throw; otherwise stream it the expert
prompt and parse its final text into the structured output. -/
def deepResearchExecute (getAgent : String → Option (List Char → List Char))
    (input : ResearchInput) : Except String DeepResearchOutput :=
  match getAgent "expert-agent" with
  | none => .error expertAgentMissingMsg
  | some expertAgent =>
    let analysisText := expertAgent (expertPrompt input).data
    let parsed := parseAnalysis analysisText
    .ok
      { topic := input.topic
        summary := analysisText
        keyFindings := parsed.findings
        relatedTopics := parsed.relatedTopics
        confidence := parsed.confidence }

/-! ### `priorityProcessingStep.execute`
(src/skills/mastra-plugin/examples/branching-workflow/workflow.ts:166-254)

The step executor either suspends (returning the suspend payload the
framework stores) or completes with a `processingResultSchema` value.
`Date.now()` is passed in as `now`. -/

/-- One entry of `orderInputSchema.items`. -/
structure OrderItem where
  sku : String
  quantity : ℚ
  name : String

/-- Validated `orderInputSchema` data (examples/branching-workflow
config). -/
structure OrderInput where
  orderId : String
  orderType : String
  amount : ℚ
  items : List OrderItem
  customerEmail : String

/-- The priority step's input (output of `validateOrderStep`). -/
structure PriorityStepInput where
  isValid : Bool
  validatedOrder : OrderInput
  validationErrors : List String

/-- Validated `resumeSchema` data. -/
structure ResumeData where
  approved : Bool
  approverNotes : Option String

/-- The `orderDetails` part of the suspend payload. -/
structure SuspendOrderDetails where
  orderId : String
  amount : ℚ
  customerEmail : String

/-- The `suspendSchema` payload. -/
structure SuspendPayload where
  reason : String
  orderDetails : SuspendOrderDetails

/-- The fields the step writes into `processingResultSchema.data`. -/
structure ProcessingData where
  trackingNumber : Option String
  shippingEstimate : Option String
  processingTime : ℚ
  approverNotes : Option String

/-- A `processingResultSchema` value. -/
structure ProcessingResult where
  success : Bool
  message : String
  data : Option ProcessingData

/-- A step run either suspends with a payload or completes with a
result. -/
inductive StepOutcome where
  | suspended (payload : SuspendPayload)
  | completed (result : ProcessingResult)

/-- JavaScript `x || d` for an optional string (empty string is falsy). -/
def jsFalsyOr (s : Option String) (d : String) : String :=
  match s with
  | some s => if s = "" then d else s
  | none => d

/-- `priorityProcessingStep.execute` (workflow.ts:186-254). -/
def priorityProcessingExecute (inputData : PriorityStepInput)
    (resumeData : Option ResumeData) (now : Nat) : StepOutcome :=
  let validatedOrder := inputData.validatedOrder
  let approved : Option Bool := resumeData.map ResumeData.approved
  let approverNotes : Option String := resumeData.bind ResumeData.approverNotes
  if validatedOrder.amount > 1000 ∧ approved = none then
    .suspended
      ⟨"High-value priority order requires manual approval",
       ⟨validatedOrder.orderId, validatedOrder.amount,
        validatedOrder.customerEmail⟩⟩
  else if approved = some false then
    .completed
      ⟨false, "Order rejected: " ++ jsFalsyOr approverNotes "No reason provided",
       some ⟨none, none, 0, none⟩⟩
  else
    .completed
      ⟨true, "Priority order processed successfully",
       some ⟨some ("PRI-" ++ validatedOrder.orderId ++ "-" ++ toString now),
             some "Same day or next business day", 100, approverNotes⟩⟩

/-! ### Auxiliary predicates used by the claim statements -/

/-- Top-level field names of an object schema. -/
def topFieldNames : ZType → List String
  | .zobject shape => shape.map fun f => f.1
  | _ => []

/-- Whether every top-level field of an object schema is required
(no `.optional()`, no `.default(...)`). -/
def topFieldsAllRequired : ZType → Bool
  | .zobject shape =>
    shape.all fun f =>
      match f.2.1 with
      | .required => true
      | _ => false
  | _ => false

/-- Modelled from the spec: the weather tool input shape named in §6 of
the specification, `{location}`. -/
def specWeatherInputFields : List String := ["location"]

/-- Modelled from the spec: the weather tool output shape named in §6 of
the specification, `{location, temperature, humidity, windSpeed,
forecast[]}`. -/
def specWeatherOutputFields : List String :=
  ["location", "temperature", "humidity", "windSpeed", "forecast"]

/-- Whether a `FieldMode` is `required`. -/
def requiredModeB : FieldMode → Bool
  | .required => true
  | _ => false

/-- The shape of an object schema (empty for non-object schemas). -/
def ZType.shapeOf : ZType → List (String × FieldMode × ZType)
  | .zobject shape => shape
  | _ => []

/-- The claim C1 input discipline: every required field of the shape is
supplied with a value the field schema accepts, and every non-required
(optional or defaulted) field is omitted. -/
def minimalInputOk (shape : List (String × FieldMode × ZType))
    (fields : List (String × Jsonv)) : Bool :=
  shape.all fun f =>
    match List.lookup f.1 fields with
    | some v => requiredModeB f.2.1 && (validateType f.2.2 v).isOk
    | none => !requiredModeB f.2.1

/-- The `(key, default)` pairs of the defaulted fields of a shape. -/
def shapeDefaults : List (String × FieldMode × ZType) → List (String × Jsonv)
  | [] => []
  | (k, .dflt d, _) :: rest => (k, d) :: shapeDefaults rest
  | _ :: rest => shapeDefaults rest

/-- Every declared default parses (through its own field schema) to
itself — true of all defaults the repository declares, and exactly the
Zod condition for a default to be populated unchanged. -/
def defaultsSelfParse (shape : List (String × FieldMode × ZType)) : Prop :=
  ∀ k d t, (k, FieldMode.dflt d, t) ∈ shape → validateType t d = .ok d

/-- A value whose runtime type tag differs from what the schema expects
(the "wrong primitive type" of claim C2). -/
def tagMismatch : ZType → Jsonv → Bool
  | .zstring, v => match v with | .jstr _ => false | _ => true
  | .znumber _ _, v => match v with | .jnum _ => false | _ => true
  | .zboolean, v => match v with | .jbool _ => false | _ => true
  | .zenum _, v => match v with | .jstr _ => false | _ => true
  | .zliteral _, v => match v with | .jstr _ => false | _ => true
  | .zarray _ _, v => match v with | .jarr _ => false | _ => true
  | .ztuple _, v => match v with | .jarr _ => false | _ => true
  | .zobject _, v => match v with | .jobj _ => false | _ => true

mutual

/-- Structural well-formedness of a schema: every object shape (at any
depth) has pairwise-distinct keys — automatic for Zod schemas, whose
shapes are JavaScript object literals. -/
def wfSchema : ZType → Bool
  | .zstring => true
  | .znumber _ _ => true
  | .zboolean => true
  | .zenum _ => true
  | .zliteral _ => true
  | .zarray elem _ => wfSchema elem
  | .ztuple ts => wfList ts
  | .zobject shape =>
    decide ((shape.map fun f => f.1).Nodup) && wfShape shape
termination_by t => (sizeOf t, 0)
decreasing_by all_goals (simp_wf; omega)

/-- `wfSchema` over the element types of a tuple. -/
def wfList : List ZType → Bool
  | [] => true
  | t :: ts => wfSchema t && wfList ts
termination_by ts => (sizeOf ts, 1)
decreasing_by all_goals (simp_wf; omega)

/-- `wfSchema` over the field types of a shape. -/
def wfShape : List (String × FieldMode × ZType) → Bool
  | [] => true
  | (_, _, t) :: rest => wfSchema t && wfShape rest
termination_by shape => (sizeOf shape, 1)
decreasing_by all_goals (simp_wf; omega)

end

/-- The concrete confirmation-tool scenario input of claim C1. -/
def confirmExampleInput : Jsonv :=
  .jobj [("title", .jstr "Delete?"), ("message", .jstr "This cannot be undone"),
         ("variant", .jstr "danger")]

/-- A weather tool output object that is valid except that the required
`forecast` field is missing (claim C2's concrete scenario). -/
def weatherMissingForecast : Jsonv :=
  .jobj [("location", .jstr "Paris"), ("temperature", .jnum 18),
         ("feelsLike", .jnum 17), ("description", .jstr "cloudy"),
         ("humidity", .jnum 60), ("windSpeed", .jnum 10),
         ("uvIndex", .jnum 3)]



/-! ## Claim theorems -/

/-- C3: for every plugin manifest defined in the repository, a feature
flag asserted `true` corresponds to a non-empty declared capability group
and a flag asserted `false` (or absent) to an absent or empty group; the
trip-planner manifest asserts tools/agents/ui with non-empty
toolIds/agentIds/uiComponents and processors/storage false with no such
groups, and the content-moderation manifest asserts only processors with
non-empty processorIds. -/
theorem claim_C3_feature_flags_reflect_groups :
    repoManifests.all manifestFlagsOk = true ∧
    tripPlannerPlugin.features = ⟨true, true, true, false, false⟩ ∧
    groupNonempty tripPlannerPlugin.toolIds = true ∧
    groupNonempty tripPlannerPlugin.agentIds = true ∧
    groupNonempty tripPlannerPlugin.uiComponents = true ∧
    tripPlannerPlugin.processorIds = none ∧
    tripPlannerPlugin.storageIds = none ∧
    contentModerationPlugin.features = ⟨false, false, false, true, false⟩ ∧
    groupNonempty contentModerationPlugin.processorIds = true ∧
    tripPlannerToolGroupIds ≠ [] := by
  decide

/-- C4: within each single plugin's declared capabilities the identifier
strings are pairwise distinct: the trip-planner toolIds and agentIds, the
content-moderation processorIds, and the ids of the ask-user-for-stuff
tool group. -/
theorem claim_C4_identifier_uniqueness :
    (tripPlannerPlugin.toolIds.getD []).Nodup ∧
    (tripPlannerPlugin.agentIds.getD []).Nodup ∧
    (contentModerationPlugin.processorIds.getD []).Nodup ∧
    (askUserTools.map MTool.id).Nodup ∧
    tripPlannerToolGroupIds.Nodup := by
  decide

/-- C6: the keys of the trip-planner manifest's `uiComponents` map are
exactly `"tool-" ++ t` for the tool ids `t` of `toolIds`, in order — the
two namespaces are in lock-step. -/
theorem claim_C6_tool_ui_lockstep :
    (tripPlannerPlugin.uiComponents.getD []).map Prod.fst =
      (tripPlannerPlugin.toolIds.getD []).map (fun t => "tool-" ++ t) := by
  decide

/-- C8 counterexample: the weather tool's declared output schema does not
match the claimed five-field shape `{location, temperature, humidity,
windSpeed, forecast[]}` exactly — `feelsLike` (as well as `description`
and `uvIndex`) is also a declared output field. -/
theorem claim_C8_weather_contract_cex :
    topFieldNames weatherOutputSchema ≠ specWeatherOutputFields ∧
    "feelsLike" ∈ topFieldNames weatherOutputSchema ∧
    "feelsLike" ∉ specWeatherOutputFields := by
  decide

/-- C8 (amended): the weather tool's declared input shape is exactly
`{location}`; its declared output shape contains the five claimed fields
but is exactly the eight-field shape `{location, temperature, feelsLike,
description, humidity, windSpeed, uvIndex, forecast[]}`, all fields
required. -/
theorem claim_C8_weather_contract :
    topFieldNames weatherInputSchema = specWeatherInputFields ∧
    topFieldsAllRequired weatherInputSchema = true ∧
    specWeatherOutputFields.all
      (fun f => (topFieldNames weatherOutputSchema).contains f) = true ∧
    topFieldNames weatherOutputSchema =
      ["location", "temperature", "feelsLike", "description", "humidity",
       "windSpeed", "uvIndex", "forecast"] ∧
    topFieldsAllRequired weatherOutputSchema = true := by
  decide

/-- C7 counterexample: with the expert agent unregistered, the
deepResearch executor does raise an error rather than return output, but
the error message does not contain the missing identifier string
`expert-agent` — it refers to the agent only in prose. -/
theorem claim_C7_missing_collaborator_cex :
    deepResearchExecute (fun _ => none) ⟨"quantum computing", "standard"⟩ =
      .error expertAgentMissingMsg ∧
    containsSub "expert-agent".data expertAgentMissingMsg.data = false := by
  exact ⟨rfl, by decide⟩

/-- C7 (amended): when the nested `expert-agent` lookup yields nothing,
`deepResearchTool.execute` fails the entire invocation with the error
`Expert agent not available. Make sure it is registered with Mastra.` —
which describes the missing expert agent in prose but not by its literal
identifier — and never returns (empty or other) output. -/
theorem claim_C7_missing_collaborator
    (getAgent : String → Option (List Char → List Char))
    (input : ResearchInput) (h : getAgent "expert-agent" = none) :
    deepResearchExecute getAgent input = .error expertAgentMissingMsg ∧
    (∀ out, deepResearchExecute getAgent input ≠ .ok out) ∧
    containsSub "Expert agent".data expertAgentMissingMsg.data = true := by
  refine ⟨?_, ?_, by decide⟩
  · unfold deepResearchExecute
    rw [h]
  · intro out hc
    unfold deepResearchExecute at hc
    rw [h] at hc
    exact absurd hc (by simp)

theorem claim_C7_missing_collaborator_witness :
    deepResearchExecute (fun _ => none) ⟨"LLM agents", "deep"⟩ =
      .error expertAgentMissingMsg ∧
    (∀ out, deepResearchExecute (fun _ => none) ⟨"LLM agents", "deep"⟩ ≠ .ok out) ∧
    containsSub "Expert agent".data expertAgentMissingMsg.data = true :=
  claim_C7_missing_collaborator (fun _ => none) ⟨"LLM agents", "deep"⟩ rfl

/-- C10: for every valid order input, the priority-processing step
suspends — carrying the order's orderId, amount and customerEmail in the
suspension payload — iff the order amount exceeds 1000 and no resume
approval decision is present; resumed with `approved = false` it
completes (does not suspend) with `success = false`; otherwise it
completes with `success = true` and a tracking number prefixed `PRI-`. -/
theorem claim_C10_priority_processing (inp : PriorityStepInput)
    (rd : Option ResumeData) (now : Nat)
    (hvalid : 0 < inp.validatedOrder.amount) :
    ((∃ p, priorityProcessingExecute inp rd now = .suspended p) ↔
       (1000 < inp.validatedOrder.amount ∧ rd = none)) ∧
    ((1000 < inp.validatedOrder.amount ∧ rd = none) →
       priorityProcessingExecute inp rd now =
         .suspended ⟨"High-value priority order requires manual approval",
           ⟨inp.validatedOrder.orderId, inp.validatedOrder.amount,
            inp.validatedOrder.customerEmail⟩⟩) ∧
    (rd.map ResumeData.approved = some false →
       ∃ res, priorityProcessingExecute inp rd now = .completed res ∧
         res.success = false) ∧
    (¬ (1000 < inp.validatedOrder.amount ∧ rd = none) →
       rd.map ResumeData.approved ≠ some false →
       ∃ res, priorityProcessingExecute inp rd now = .completed res ∧
         res.success = true ∧
         ∃ d tn, res.data = some d ∧ d.trackingNumber = some tn ∧
           "PRI-".data <+: tn.data) := by
  have pref : ∀ s : String, "PRI-".data <+:
      ("PRI-" ++ s ++ "-" ++ toString now).data := by
    intro s
    simp only [String.data_append, List.append_assoc]
    exact List.prefix_append _ _
  rcases rd with _ | r
  · by_cases hamt : 1000 < inp.validatedOrder.amount
    · have hc : 1000 < inp.validatedOrder.amount ∧
          Option.map ResumeData.approved none = none := ⟨hamt, rfl⟩
      have hE : priorityProcessingExecute inp none now =
          .suspended ⟨"High-value priority order requires manual approval",
            ⟨inp.validatedOrder.orderId, inp.validatedOrder.amount,
             inp.validatedOrder.customerEmail⟩⟩ := by
        simp only [priorityProcessingExecute]
        rw [if_pos hc]
      refine ⟨⟨fun _ => ⟨hamt, rfl⟩, fun _ => ⟨_, hE⟩⟩, fun _ => hE, ?_, ?_⟩
      · intro hap
        exact absurd hap (by simp)
      · intro hn _
        exact absurd ⟨hamt, rfl⟩ hn
    · have hc : ¬ (1000 < inp.validatedOrder.amount ∧
          Option.map ResumeData.approved none = none) := fun h => hamt h.1
      have hE : priorityProcessingExecute inp none now =
          .completed ⟨true, "Priority order processed successfully",
            some ⟨some ("PRI-" ++ inp.validatedOrder.orderId ++ "-" ++ toString now),
                  some "Same day or next business day", 100,
                  Option.bind none ResumeData.approverNotes⟩⟩ := by
        simp only [priorityProcessingExecute]
        rw [if_neg hc,
          if_neg (show ¬ Option.map ResumeData.approved none = some false by simp)]
      refine ⟨⟨?_, fun h => absurd h.1 hamt⟩, fun h => absurd h.1 hamt, ?_, ?_⟩
      · rintro ⟨p, hp⟩
        rw [hE] at hp
        exact absurd hp (by simp)
      · intro hap
        exact absurd hap (by simp)
      · intro _ _
        exact ⟨_, hE, rfl, _, _, rfl, rfl, pref _⟩
  · have hc : ¬ (1000 < inp.validatedOrder.amount ∧
        Option.map ResumeData.approved (some r) = none) :=
      fun h => Option.noConfusion h.2
    by_cases hap : r.approved = false
    · have hsf : Option.map ResumeData.approved (some r) = some false := by
        simp [hap]
      have hE : priorityProcessingExecute inp (some r) now =
          .completed ⟨false, "Order rejected: " ++
              jsFalsyOr (Option.bind (some r) ResumeData.approverNotes)
                "No reason provided",
            some ⟨none, none, 0, none⟩⟩ := by
        simp only [priorityProcessingExecute]
        rw [if_neg hc, if_pos hsf]
      refine ⟨⟨?_, fun h => absurd h.2 (by simp)⟩,
        fun h => absurd h.2 (by simp), fun _ => ⟨_, hE, rfl⟩, ?_⟩
      · rintro ⟨p, hp⟩
        rw [hE] at hp
        exact absurd hp (by simp)
      · intro _ hne
        exact absurd hsf hne
    · have hsf : ¬ (Option.map ResumeData.approved (some r) = some false) := by
        simp [hap]
      have hE : priorityProcessingExecute inp (some r) now =
          .completed ⟨true, "Priority order processed successfully",
            some ⟨some ("PRI-" ++ inp.validatedOrder.orderId ++ "-" ++ toString now),
                  some "Same day or next business day", 100,
                  Option.bind (some r) ResumeData.approverNotes⟩⟩ := by
        simp only [priorityProcessingExecute]
        rw [if_neg hc, if_neg hsf]
      refine ⟨⟨?_, fun h => absurd h.2 (by simp)⟩,
        fun h => absurd h.2 (by simp), fun h => absurd h hsf, ?_⟩
      · rintro ⟨p, hp⟩
        rw [hE] at hp
        exact absurd hp (by simp)
      · intro _ _
        exact ⟨_, hE, rfl, _, _, rfl, rfl, pref _⟩

theorem claim_C10_priority_processing_witness :
    (0 : ℚ) < 1500 ∧
    priorityProcessingExecute
        ⟨true, ⟨"ord-1", "priority", 1500, [], "a@b.com"⟩, []⟩ none 0 =
      .suspended ⟨"High-value priority order requires manual approval",
        ⟨"ord-1", 1500, "a@b.com"⟩⟩ :=
  ⟨by norm_num,
    (claim_C10_priority_processing
        ⟨true, ⟨"ord-1", "priority", 1500, [], "a@b.com"⟩, []⟩ none 0
        (by norm_num)).2.1 ⟨by norm_num, rfl⟩⟩

/-! ### C9: bounds on `parseAnalysis` -/

theorem processLineFindings_mem {fs : List ResearchFinding} {tr : List Char}
    {f : ResearchFinding} (hf : f ∈ processLineFindings fs tr) :
    f ∈ fs ∨ (f.importance ∈ (["high", "medium", "low"] : List String) ∧
      10 < f.point.length) := by
  simp only [processLineFindings] at hf
  split_ifs at hf with h1 h2 h3 h4 h5 h6 <;>
    try (exact Or.inl hf)
  all_goals
    rcases List.mem_append.mp hf with h | h
  · exact Or.inl h
  · rw [List.mem_singleton.mp h]
    exact Or.inr ⟨by simp, by assumption⟩
  · exact Or.inl h
  · rw [List.mem_singleton.mp h]
    exact Or.inr ⟨by simp, by assumption⟩
  · exact Or.inl h
  · rw [List.mem_singleton.mp h]
    exact Or.inr ⟨by simp, by assumption⟩

theorem analysisLoop_findings_inv (lines : List (List Char)) (st : AnalysisState)
    (hst : ∀ f ∈ st.findings,
      f.importance ∈ (["high", "medium", "low"] : List String) ∧ 10 < f.point.length) :
    ∀ f ∈ (analysisLoop lines st).findings,
      f.importance ∈ (["high", "medium", "low"] : List String) ∧ 10 < f.point.length := by
  induction lines generalizing st with
  | nil => exact hst
  | cons line rest ih =>
    refine ih _ ?_
    intro f hf
    rcases processLineFindings_mem hf with h | h
    · exact hst f h
    · exact h

theorem fallbackFindings_inv (lines : List (List Char)) :
    ∀ f ∈ fallbackFindings lines, f.importance = "medium" ∧ 15 < f.point.length := by
  induction lines with
  | nil => intro f hf; simp [fallbackFindings] at hf
  | cons line rest ih =>
    intro f hf
    simp only [fallbackFindings] at hf
    split_ifs at hf with h1 h2
    · rcases List.mem_cons.mp hf with rfl | h
      · exact ⟨rfl, by assumption⟩
      · exact ih f h
    · exact ih f hf
    · exact ih f hf

theorem jsSetDedupAux_nodup (l : List (List Char)) :
    ∀ seen, (jsSetDedupAux seen l).Nodup ∧ ∀ x ∈ jsSetDedupAux seen l, x ∉ seen := by
  induction l with
  | nil => intro seen; simp [jsSetDedupAux]
  | cons x r ih =>
    intro seen
    unfold jsSetDedupAux
    split_ifs with hx
    · exact ih seen
    · obtain ⟨hnd, hnotin⟩ := ih (x :: seen)
      refine ⟨List.nodup_cons.mpr ⟨fun hmem => ?_, hnd⟩, ?_⟩
      · exact (hnotin x hmem) (List.mem_cons_self x seen)
      · intro y hy
        rcases List.mem_cons.mp hy with rfl | hy'
        · exact hx
        · exact fun hys => (hnotin y hy') (List.mem_cons_of_mem x hys)

/-- C9: for every input text, `parseAnalysis` returns a confidence in
[0, 1], at most 6 findings, each with importance among high/medium/low
and point length greater than 10 (greater than 15 when the bullet-point
fallback produced them, i.e. when the main loop found none), and at most
4 related topics with no duplicates. -/
theorem claim_C9_parseAnalysis_bounds (text : List Char) :
    0 ≤ (parseAnalysis text).confidence ∧ (parseAnalysis text).confidence ≤ 1 ∧
    (parseAnalysis text).findings.length ≤ 6 ∧
    (∀ f ∈ (parseAnalysis text).findings,
       f.importance ∈ (["high", "medium", "low"] : List String) ∧
       10 < f.point.length) ∧
    ((mainLoopState text).findings = [] →
       ∀ f ∈ (parseAnalysis text).findings, 15 < f.point.length) ∧
    (parseAnalysis text).relatedTopics.length ≤ 4 ∧
    (parseAnalysis text).relatedTopics.Nodup := by
  have hmain := analysisLoop_findings_inv (splitLines text) ⟨[], [], 7 / 10⟩
    (by intro f hf; simp at hf)
  have hfall := fallbackFindings_inv (splitLines text)
  have hdedup := jsSetDedupAux_nodup
    (analysisLoop (splitLines text) ⟨[], [], 7 / 10⟩).relatedTopics []
  refine ⟨?_, ?_, ?_, ?_, ?_, ?_, ?_⟩
  · exact le_max_left _ _
  · exact max_le (by norm_num) (min_le_left _ _)
  · exact List.length_take_le _ _
  · intro f hf
    have hf' := List.take_subset _ _ hf
    simp only [parseAnalysis] at hf'
    split_ifs at hf' with hempty
    · obtain ⟨him, hlen⟩ := hfall f hf'
      exact ⟨by simp [him], by omega⟩
    · exact hmain f hf'
  · intro hnone f hf
    have hf' := List.take_subset _ _ hf
    simp only [parseAnalysis] at hf'
    rw [if_pos (by simpa [mainLoopState, List.isEmpty_iff] using hnone)] at hf'
    exact (hfall f hf').2
  · exact List.length_take_le _ _
  · exact List.Nodup.sublist (List.take_sublist _ _) hdedup.1

theorem claim_C9_parseAnalysis_bounds_witness :
    0 ≤ (parseAnalysis "Confidence: 80%".data).confidence ∧
    (parseAnalysis "Confidence: 80%".data).confidence ≤ 1 ∧
    (parseAnalysis "Confidence: 80%".data).findings.length ≤ 6 ∧
    (∀ f ∈ (parseAnalysis "Confidence: 80%".data).findings,
       f.importance ∈ (["high", "medium", "low"] : List String) ∧
       10 < f.point.length) ∧
    ((mainLoopState "Confidence: 80%".data).findings = [] →
       ∀ f ∈ (parseAnalysis "Confidence: 80%".data).findings,
         15 < f.point.length) ∧
    (parseAnalysis "Confidence: 80%".data).relatedTopics.length ≤ 4 ∧
    (parseAnalysis "Confidence: 80%".data).relatedTopics.Nodup :=
  claim_C9_parseAnalysis_bounds "Confidence: 80%".data

/-! ### C1/C2: Zod validation lemmas -/

theorem validateType_error_nonempty {t : ZType} {v : Jsonv} {es : List ZIssue}
    (h : validateType t v = .error es) : es ≠ [] := by
  cases t <;> cases v <;>
    simp only [validateType.eq_def] at h <;>
    (try split_ifs at h) <;>
    (try (cases h)) <;>
    simp_all [List.isEmpty_iff]

theorem validateObj_error {shape : List (String × FieldMode × ZType)}
    {fields : List (String × Jsonv)}
    (h : (validateShape shape fields).1 ≠ []) :
    validateType (.zobject shape) (.jobj fields) =
      .error (validateShape shape fields).1 := by
  simp only [validateType.eq_def]
  rw [if_neg (by simpa [List.isEmpty_iff] using h)]

theorem validateShape_missing_required {k : String} {t : ZType}
    {shape : List (String × FieldMode × ZType)} {fields : List (String × Jsonv)}
    (hmem : (k, FieldMode.required, t) ∈ shape)
    (hlk : List.lookup k fields = none) :
    ZIssue.mk [k] "Required" ∈ (validateShape shape fields).1 := by
  induction shape with
  | nil => simp at hmem
  | cons hd rest ih =>
    obtain ⟨k', m', t'⟩ := hd
    rcases List.mem_cons.mp hmem with heq | hmem'
    · cases heq
      simp only [validateShape, hlk, lookupStep]
      exact List.mem_cons_self _ _
    · have hr := ih hmem'
      cases hl : List.lookup k' fields with
      | some v =>
        cases hv : validateType t' v with
        | ok w => simpa [validateShape, hl, hv, lookupStep, fieldStep] using hr
        | error es =>
          simp only [validateShape, hl, hv, lookupStep, fieldStep]
          exact List.mem_append_right _ hr
      | none =>
        cases m' with
        | required =>
          simp only [validateShape, hl, lookupStep]
          exact List.mem_cons_of_mem _ hr
        | optional => simpa [validateShape, hl, lookupStep] using hr
        | dflt d =>
          cases hv : validateType t' d with
          | ok w => simpa [validateShape, hl, hv, lookupStep, fieldStep] using hr
          | error es =>
            simp only [validateShape, hl, hv, lookupStep, fieldStep]
            exact List.mem_append_right _ hr

theorem validateShape_present_error {k : String} {m : FieldMode} {t : ZType}
    {shape : List (String × FieldMode × ZType)} {fields : List (String × Jsonv)}
    {v : Jsonv} {es : List ZIssue}
    (hmem : (k, m, t) ∈ shape)
    (hlk : List.lookup k fields = some v)
    (hv : validateType t v = .error es) :
    ∀ i ∈ es, ZIssue.mk (k :: i.path) i.msg ∈ (validateShape shape fields).1 := by
  induction shape with
  | nil => simp at hmem
  | cons hd rest ih =>
    obtain ⟨k', m', t'⟩ := hd
    intro i hi
    rcases List.mem_cons.mp hmem with heq | hmem'
    · cases heq
      simp only [validateShape, hlk, hv, lookupStep, fieldStep]
      refine List.mem_append_left _ ?_
      exact List.mem_map.mpr ⟨i, hi, rfl⟩
    · have hr := ih hmem' i hi
      cases hl : List.lookup k' fields with
      | some v' =>
        cases hv' : validateType t' v' with
        | ok w => simpa [validateShape, hl, hv', lookupStep, fieldStep] using hr
        | error es' =>
          simp only [validateShape, hl, hv', lookupStep, fieldStep]
          exact List.mem_append_right _ hr
      | none =>
        cases m' with
        | required =>
          simp only [validateShape, hl, lookupStep]
          exact List.mem_cons_of_mem _ hr
        | optional => simpa [validateShape, hl, lookupStep] using hr
        | dflt d =>
          cases hv' : validateType t' d with
          | ok w => simpa [validateShape, hl, hv', lookupStep, fieldStep] using hr
          | error es' =>
            simp only [validateShape, hl, hv', lookupStep, fieldStep]
            exact List.mem_append_right _ hr

theorem tagMismatch_root {t : ZType} {v : Jsonv}
    (h : tagMismatch t v = true) :
    ∃ msg, validateType t v = .error [⟨[], msg⟩] := by
  cases t <;> cases v <;> simp [tagMismatch] at h <;>
    exact ⟨_, by simp only [validateType.eq_def]; rfl⟩

/-- C2: for every required field of a declared capability schema,
validating an object that omits that field (or supplies a value of the
wrong primitive type for it) fails with a validation error naming that
field; in particular a weather tool output object missing the required
`forecast` field fails validation with a field-level `Required` issue at
path `forecast`. -/
theorem claim_C2_required_field_rejection
    (shape : List (String × FieldMode × ZType))
    (hS : ZType.zobject shape ∈ declaredSchemas)
    (k : String) (t : ZType) (hf : (k, FieldMode.required, t) ∈ shape)
    (fields : List (String × Jsonv)) :
    (List.lookup k fields = none →
      ∃ es, validateType (.zobject shape) (.jobj fields) = .error es ∧
        ZIssue.mk [k] "Required" ∈ es) ∧
    (∀ v, List.lookup k fields = some v → tagMismatch t v = true →
      ∃ es msg, validateType (.zobject shape) (.jobj fields) = .error es ∧
        ZIssue.mk [k] msg ∈ es) ∧
    (∃ es, validateType weatherOutputSchema weatherMissingForecast = .error es ∧
      ZIssue.mk ["forecast"] "Required" ∈ es) := by
  refine ⟨?_, ?_, ?_⟩
  · intro hlk
    have hmem := validateShape_missing_required hf hlk
    have hne : (validateShape shape fields).1 ≠ [] := by
      intro h0
      rw [h0] at hmem
      simp at hmem
    exact ⟨_, validateObj_error hne, hmem⟩
  · intro v hlk hmis
    obtain ⟨msg, hmsg⟩ := tagMismatch_root hmis
    have hmem := validateShape_present_error hf hlk hmsg (ZIssue.mk [] msg)
      (List.mem_singleton_self _)
    have hne : (validateShape shape fields).1 ≠ [] := by
      intro h0
      rw [h0] at hmem
      simp at hmem
    exact ⟨_, msg, validateObj_error hne, hmem⟩
  · refine ⟨[⟨["forecast"], "Required"⟩], ?_, List.mem_singleton_self _⟩
    simp [validateType, validateShape, lookupStep, fieldStep,
      weatherOutputSchema, weatherMissingForecast, List.lookup]

theorem claim_C2_required_field_rejection_witness :
    ∃ es, validateType (.zobject confirmationInputSchema.shapeOf) (.jobj []) =
        .error es ∧ ZIssue.mk ["title"] "Required" ∈ es :=
  (claim_C2_required_field_rejection confirmationInputSchema.shapeOf
    (by simp [declaredSchemas, declaredInputSchemas, confirmationInputSchema,
      ZType.shapeOf])
    "title" .zstring
    (by simp [confirmationInputSchema, ZType.shapeOf]) []).1 rfl

theorem lookup_cons_ne {β : Type} {k k' : String} {w : β} {l : List (String × β)}
    (h : k' ≠ k) : List.lookup k' ((k, w) :: l) = List.lookup k' l := by
  have hb : (k' == k) = false := beq_eq_false_iff_ne.mpr h
  simp [List.lookup, hb]

theorem lookup_cons_self {β : Type} {k : String} {w : β} {l : List (String × β)} :
    List.lookup k ((k, w) :: l) = some w := by
  simp [List.lookup]

theorem shapeDefaults_keys {shape : List (String × FieldMode × ZType)}
    {k : String} {d : Jsonv} (h : (k, d) ∈ shapeDefaults shape) :
    k ∈ shape.map fun f => f.1 := by
  induction shape with
  | nil => simp [shapeDefaults] at h
  | cons hd rest ih =>
    obtain ⟨k', m', t'⟩ := hd
    cases m' with
    | required =>
      simp only [shapeDefaults] at h
      exact List.mem_cons_of_mem _ (ih h)
    | optional =>
      simp only [shapeDefaults] at h
      exact List.mem_cons_of_mem _ (ih h)
    | dflt d' =>
      simp only [shapeDefaults, List.mem_cons, Prod.mk.injEq] at h
      rcases h with ⟨rfl, rfl⟩ | h
      · exact List.mem_cons_self _ _
      · exact List.mem_cons_of_mem _ (ih h)

theorem validateShape_minimal
    (shape : List (String × FieldMode × ZType)) (fields : List (String × Jsonv))
    (hnd : (shape.map fun f => f.1).Nodup)
    (hdef : defaultsSelfParse shape)
    (hmin : minimalInputOk shape fields = true) :
    (validateShape shape fields).1 = [] ∧
    ∀ k d, (k, d) ∈ shapeDefaults shape →
      List.lookup k (validateShape shape fields).2 = some d := by
  induction shape with
  | nil =>
    constructor
    · simp [validateShape]
    · intro k d h
      simp [shapeDefaults] at h
  | cons hd rest ih =>
    obtain ⟨k, m, t⟩ := hd
    simp only [List.map_cons, List.nodup_cons] at hnd
    obtain ⟨hknotin, hndr⟩ := hnd
    have hdefr : defaultsSelfParse rest :=
      fun k' d' t' hm => hdef k' d' t' (List.mem_cons_of_mem _ hm)
    simp only [minimalInputOk, List.all_cons, Bool.and_eq_true] at hmin
    obtain ⟨hhead, hrest⟩ := hmin
    have ihr := ih hndr hdefr hrest
    cases hl : List.lookup k fields with
    | some v =>
      rw [hl] at hhead
      simp only [Bool.and_eq_true] at hhead
      cases m with
      | optional => simp [requiredModeB] at hhead
      | dflt d => simp [requiredModeB] at hhead
      | required =>
        cases hv : validateType t v with
        | error es => rw [hv] at hhead; simp [Except.isOk, Except.toBool] at hhead
        | ok w =>
          simp only [validateShape, hl, hv, lookupStep, fieldStep]
          refine ⟨ihr.1, ?_⟩
          intro k' d' hm
          simp only [shapeDefaults] at hm
          have hne : k' ≠ k := by
            intro he
            exact hknotin (he ▸ shapeDefaults_keys hm)
          rw [lookup_cons_ne hne]
          exact ihr.2 k' d' hm
    | none =>
      rw [hl] at hhead
      cases m with
      | required => simp [requiredModeB] at hhead
      | optional =>
        simp only [validateShape, hl, lookupStep]
        refine ⟨ihr.1, ?_⟩
        intro k' d' hm
        simp only [shapeDefaults] at hm
        exact ihr.2 k' d' hm
      | dflt d =>
        have hok : validateType t d = .ok d :=
          hdef k d t (List.mem_cons_self _ _)
        simp only [validateShape, hl, hok, lookupStep, fieldStep]
        refine ⟨ihr.1, ?_⟩
        intro k' d' hm
        simp only [shapeDefaults, List.mem_cons, Prod.mk.injEq] at hm
        rcases hm with ⟨rfl, rfl⟩ | hm
        · exact lookup_cons_self
        · have hne : k' ≠ k := by
            intro he
            exact hknotin (he ▸ shapeDefaults_keys hm)
          rw [lookup_cons_ne hne]
          exact ihr.2 k' d' hm

theorem confirmationInput_defaults :
    defaultsSelfParse confirmationInputSchema.shapeOf := by
  intro k d t hm
  simp only [confirmationInputSchema, ZType.shapeOf, List.mem_cons,
    List.not_mem_nil, or_false, Prod.mk.injEq, reduceCtorEq, false_and,
    and_false, false_or, FieldMode.dflt.injEq] at hm
  rcases hm with ⟨rfl, rfl, rfl⟩ | ⟨rfl, rfl, rfl⟩ | ⟨rfl, rfl, rfl⟩ <;>
    simp [validateType]

theorem multipleChoiceInput_defaults :
    defaultsSelfParse multipleChoiceInputSchema.shapeOf := by
  intro k d t hm
  simp only [multipleChoiceInputSchema, ZType.shapeOf, List.mem_cons,
    List.not_mem_nil, or_false, Prod.mk.injEq, reduceCtorEq, false_and,
    and_false, false_or, FieldMode.dflt.injEq] at hm
  obtain ⟨rfl, rfl, rfl⟩ := hm
  simp [validateType]

theorem textInput_defaults : defaultsSelfParse textInputSchema.shapeOf := by
  intro k d t hm
  simp only [textInputSchema, ZType.shapeOf, List.mem_cons,
    List.not_mem_nil, or_false, Prod.mk.injEq, reduceCtorEq, false_and,
    and_false, false_or, FieldMode.dflt.injEq] at hm
  rcases hm with ⟨rfl, rfl, rfl⟩ | ⟨rfl, rfl, rfl⟩ <;> simp [validateType]

theorem weatherInput_defaults : defaultsSelfParse weatherInputSchema.shapeOf := by
  intro k d t hm
  simp only [weatherInputSchema, ZType.shapeOf, List.mem_cons,
    List.not_mem_nil, or_false, Prod.mk.injEq, reduceCtorEq, false_and,
    and_false, false_or] at hm

theorem placesInput_defaults : defaultsSelfParse placesInputSchema.shapeOf := by
  intro k d t hm
  simp only [placesInputSchema, ZType.shapeOf, List.mem_cons,
    List.not_mem_nil, or_false, Prod.mk.injEq, reduceCtorEq, false_and,
    and_false, false_or, FieldMode.dflt.injEq] at hm
  obtain ⟨rfl, rfl, rfl⟩ := hm
  simp [validateType]

theorem geojsonInput_defaults : defaultsSelfParse geojsonInputSchema.shapeOf := by
  intro k d t hm
  simp only [geojsonInputSchema, ZType.shapeOf, List.mem_cons,
    List.not_mem_nil, or_false, Prod.mk.injEq, reduceCtorEq, false_and,
    and_false, false_or] at hm

theorem researchInput_defaults : defaultsSelfParse researchInputSchema.shapeOf := by
  intro k d t hm
  simp only [researchInputSchema, ZType.shapeOf, List.mem_cons,
    List.not_mem_nil, or_false, Prod.mk.injEq, reduceCtorEq, false_and,
    and_false, false_or, FieldMode.dflt.injEq] at hm
  obtain ⟨rfl, rfl, rfl⟩ := hm
  simp [validateType]

/-- C1: for every declared capability input schema, validating an input
object that supplies (valid values for) all required fields and omits the
optional and defaulted ones succeeds and populates every declared
default; in particular validating
`{title: "Delete?", message: "This cannot be undone", variant: "danger"}`
against the confirmation tool's input schema succeeds with
`confirmLabel = "Confirm"` and `cancelLabel = "Cancel"` in the result. -/
theorem claim_C1_minimal_input_defaults
    (shape : List (String × FieldMode × ZType))
    (hS : ZType.zobject shape ∈ declaredInputSchemas)
    (fields : List (String × Jsonv))
    (hmin : minimalInputOk shape fields = true) :
    (∃ out, validateType (.zobject shape) (.jobj fields) = .ok (.jobj out) ∧
       ∀ k d, (k, d) ∈ shapeDefaults shape → List.lookup k out = some d) ∧
    (∃ out, validateType confirmationInputSchema confirmExampleInput =
        .ok (.jobj out) ∧
       List.lookup "confirmLabel" out = some (.jstr "Confirm") ∧
       List.lookup "cancelLabel" out = some (.jstr "Cancel")) := by
  constructor
  · have hwf : (shape.map fun f => f.1).Nodup ∧ defaultsSelfParse shape := by
      simp only [declaredInputSchemas, List.mem_cons, List.not_mem_nil,
        or_false] at hS
      rcases hS with h | h | h | h | h | h | h
      · simp only [confirmationInputSchema, ZType.zobject.injEq] at h
        subst h
        exact ⟨by decide, confirmationInput_defaults⟩
      · simp only [multipleChoiceInputSchema, ZType.zobject.injEq] at h
        subst h
        exact ⟨by decide, multipleChoiceInput_defaults⟩
      · simp only [textInputSchema, ZType.zobject.injEq] at h
        subst h
        exact ⟨by decide, textInput_defaults⟩
      · simp only [weatherInputSchema, ZType.zobject.injEq] at h
        subst h
        exact ⟨by decide, weatherInput_defaults⟩
      · simp only [placesInputSchema, ZType.zobject.injEq] at h
        subst h
        exact ⟨by decide, placesInput_defaults⟩
      · simp only [geojsonInputSchema, ZType.zobject.injEq] at h
        subst h
        exact ⟨by decide, geojsonInput_defaults⟩
      · simp only [researchInputSchema, ZType.zobject.injEq] at h
        subst h
        exact ⟨by decide, researchInput_defaults⟩
    obtain ⟨hnd, hdef⟩ := hwf
    obtain ⟨h1, h2⟩ := validateShape_minimal shape fields hnd hdef hmin
    refine ⟨(validateShape shape fields).2, ?_, h2⟩
    simp only [validateType.eq_def]
    rw [if_pos (by simp [h1])]
  · refine ⟨[("title", .jstr "Delete?"), ("message", .jstr "This cannot be undone"),
      ("confirmLabel", .jstr "Confirm"), ("cancelLabel", .jstr "Cancel"),
      ("variant", .jstr "danger")], ?_, ?_, ?_⟩
    · simp [validateType, validateShape, lookupStep, fieldStep,
        confirmationInputSchema, confirmExampleInput, List.lookup]
    · simp [List.lookup]
    · simp [List.lookup]

theorem claim_C1_minimal_input_defaults_witness :
    (∃ out, validateType (.zobject confirmationInputSchema.shapeOf)
        (.jobj [("title", Jsonv.jstr "Delete?"),
                ("message", Jsonv.jstr "This cannot be undone")]) =
        .ok (.jobj out) ∧
       ∀ k d, (k, d) ∈ shapeDefaults confirmationInputSchema.shapeOf →
         List.lookup k out = some d) ∧
    (∃ out, validateType confirmationInputSchema confirmExampleInput =
        .ok (.jobj out) ∧
       List.lookup "confirmLabel" out = some (.jstr "Confirm") ∧
       List.lookup "cancelLabel" out = some (.jstr "Cancel")) :=
  claim_C1_minimal_input_defaults confirmationInputSchema.shapeOf
    (by simp [declaredInputSchemas, confirmationInputSchema, ZType.shapeOf])
    [("title", Jsonv.jstr "Delete?"),
     ("message", Jsonv.jstr "This cannot be undone")]
    (by simp [minimalInputOk, confirmationInputSchema, ZType.shapeOf,
      List.lookup, requiredModeB, validateType, Except.isOk, Except.toBool])

/-! ### C5: validation is idempotent (re-validating a validated value is
the identity) -/

theorem sizeOf_pos_ztype (t : ZType) : 1 ≤ sizeOf t := by
  cases t <;> simp <;> omega

theorem wfList_mem {ts : List ZType} (h : wfList ts = true) {t : ZType}
    (hm : t ∈ ts) : wfSchema t = true := by
  induction ts with
  | nil => simp at hm
  | cons a as ih =>
    simp only [wfList, Bool.and_eq_true] at h
    rcases List.mem_cons.mp hm with rfl | hm2
    · exact h.1
    · exact ih h.2 hm2

theorem wfShape_mem {shape : List (String × FieldMode × ZType)}
    (h : wfShape shape = true) {k : String} {m : FieldMode} {t : ZType}
    (hm : (k, m, t) ∈ shape) : wfSchema t = true := by
  induction shape with
  | nil => simp at hm
  | cons a as ih =>
    obtain ⟨k', m', t'⟩ := a
    simp only [wfShape, Bool.and_eq_true] at h
    rcases List.mem_cons.mp hm with heq | hm2
    · cases heq
      exact h.1
    · exact ih h.2 hm2

theorem lookup_eq_none_of_notin {β : Type} {k : String} {l : List (String × β)}
    (h : ∀ p ∈ l, p.1 ≠ k) : List.lookup k l = none := by
  induction l with
  | nil => rfl
  | cons p rest ih =>
    obtain ⟨k', b⟩ := p
    have hne : k ≠ k' := fun he => (h (k', b) (List.mem_cons_self _ _)) he.symm
    have hb : (k == k') = false := beq_eq_false_iff_ne.mpr hne
    simp only [List.lookup, hb]
    exact ih fun p hp => h p (List.mem_cons_of_mem _ hp)

theorem validateShape_out_keys {shape : List (String × FieldMode × ZType)}
    {fields : List (String × Jsonv)} :
    ∀ p ∈ (validateShape shape fields).2, p.1 ∈ shape.map fun f => f.1 := by
  induction shape with
  | nil => simp [validateShape]
  | cons hd rest ih =>
    obtain ⟨k, m, t⟩ := hd
    intro p hp
    cases hl : List.lookup k fields with
    | some v =>
      cases hv : validateType t v with
      | ok w =>
        simp only [validateShape, hl, hv, lookupStep, fieldStep] at hp
        rcases List.mem_cons.mp hp with rfl | hp2
        · exact List.mem_cons_self _ _
        · exact List.mem_cons_of_mem _ (ih p hp2)
      | error es =>
        simp only [validateShape, hl, hv, lookupStep, fieldStep] at hp
        exact List.mem_cons_of_mem _ (ih p hp)
    | none =>
      cases m with
      | required =>
        simp only [validateShape, hl, lookupStep] at hp
        exact List.mem_cons_of_mem _ (ih p hp)
      | optional =>
        simp only [validateShape, hl, lookupStep] at hp
        exact List.mem_cons_of_mem _ (ih p hp)
      | dflt d =>
        cases hv : validateType t d with
        | ok w =>
          simp only [validateShape, hl, hv, lookupStep, fieldStep] at hp
          rcases List.mem_cons.mp hp with rfl | hp2
          · exact List.mem_cons_self _ _
          · exact List.mem_cons_of_mem _ (ih p hp2)
        | error es =>
          simp only [validateShape, hl, hv, lookupStep, fieldStep] at hp
          exact List.mem_cons_of_mem _ (ih p hp)

theorem validateShape_extra_key {shape : List (String × FieldMode × ZType)}
    {fields : List (String × Jsonv)} {k : String} {x : Jsonv}
    (hk : k ∉ shape.map fun f => f.1) :
    validateShape shape ((k, x) :: fields) = validateShape shape fields := by
  induction shape with
  | nil => simp [validateShape]
  | cons hd rest ih =>
    obtain ⟨k', m', t'⟩ := hd
    simp only [List.map_cons, List.mem_cons, not_or] at hk
    have hne : k' ≠ k := fun he => hk.1 he.symm
    simp only [validateShape, lookup_cons_ne hne,
      ih hk.2]

theorem validateElems_proj (elem : ZType)
    (hproj : ∀ v w, validateType elem v = .ok w → validateType elem w = .ok w) :
    ∀ (xs : List Jsonv) (i : Nat), (validateElems elem i xs).1 = [] →
      (validateElems elem i xs).2.length = xs.length ∧
      ∀ i', validateElems elem i' (validateElems elem i xs).2 =
        ([], (validateElems elem i xs).2) := by
  intro xs
  induction xs with
  | nil =>
    intro i _
    constructor
    · simp [validateElems]
    · intro i'
      simp [validateElems]
  | cons x xs ih =>
    intro i h
    cases hv : validateType elem x with
    | error es =>
      exfalso
      simp only [validateElems, hv, elemStep, prependPath] at h
      rcases List.append_eq_nil.mp h with ⟨h1, _⟩
      exact validateType_error_nonempty hv (List.map_eq_nil.mp h1)
    | ok y =>
      have hrest : (validateElems elem (i + 1) xs).1 = [] := by
        simpa only [validateElems, hv, elemStep] using h
      obtain ⟨hlen, hre⟩ := ih (i + 1) hrest
      constructor
      · simp only [validateElems, hv, elemStep, List.length_cons]
        omega
      · intro i'
        simp only [validateElems, hv, elemStep]
        simp only [validateElems, hproj x y hv, elemStep, hre (i' + 1)]

theorem validateTupleElems_proj (ts : List ZType)
    (hproj : ∀ t ∈ ts, ∀ v w, validateType t v = .ok w → validateType t w = .ok w) :
    ∀ (xs : List Jsonv) (i : Nat), xs.length = ts.length →
      (validateTupleElems ts i xs).1 = [] →
      (validateTupleElems ts i xs).2.length = xs.length ∧
      ∀ i', validateTupleElems ts i' (validateTupleElems ts i xs).2 =
        ([], (validateTupleElems ts i xs).2) := by
  induction ts with
  | nil =>
    intro xs i hlen _
    have : xs = [] := List.length_eq_zero.mp hlen
    subst this
    constructor
    · simp [validateTupleElems]
    · intro i'
      simp [validateTupleElems]
  | cons t ts ih =>
    intro xs i hlen h
    cases xs with
    | nil => simp at hlen
    | cons x xs' =>
      cases hv : validateType t x with
      | error es =>
        exfalso
        simp only [validateTupleElems, hv, elemStep, prependPath] at h
        rcases List.append_eq_nil.mp h with ⟨h1, _⟩
        exact validateType_error_nonempty hv (List.map_eq_nil.mp h1)
      | ok y =>
        have hlen' : xs'.length = ts.length := by
          simpa using hlen
        have hrest : (validateTupleElems ts (i + 1) xs').1 = [] := by
          simpa only [validateTupleElems, hv, elemStep] using h
        obtain ⟨hl2, hre⟩ := ih (fun t ht => hproj t (List.mem_cons_of_mem _ ht))
          xs' (i + 1) hlen' hrest
        constructor
        · simp only [validateTupleElems, hv, elemStep, List.length_cons]
          omega
        · intro i'
          simp only [validateTupleElems, hv, elemStep]
          simp only [validateTupleElems,
            hproj t (List.mem_cons_self _ _) x y hv, elemStep, hre (i' + 1)]

theorem validateShape_proj (shape : List (String × FieldMode × ZType))
    (hproj : ∀ k m t, (k, m, t) ∈ shape → ∀ v w,
      validateType t v = .ok w → validateType t w = .ok w)
    (hnd : (shape.map fun f => f.1).Nodup) :
    ∀ fields, (validateShape shape fields).1 = [] →
      validateShape shape (validateShape shape fields).2 =
        ([], (validateShape shape fields).2) := by
  induction shape with
  | nil =>
    intro fields _
    simp [validateShape]
  | cons hd rest ih =>
    obtain ⟨k, m, t⟩ := hd
    intro fields h
    simp only [List.map_cons, List.nodup_cons] at hnd
    obtain ⟨hknotin, hndr⟩ := hnd
    have hprojr : ∀ k' m' t', (k', m', t') ∈ rest → ∀ v w,
        validateType t' v = .ok w → validateType t' w = .ok w :=
      fun k' m' t' hm => hproj k' m' t' (List.mem_cons_of_mem _ hm)
    have ihr := ih hprojr hndr fields
    cases hl : List.lookup k fields with
    | some v =>
      cases hv : validateType t v with
      | error es =>
        exfalso
        simp only [validateShape, hl, hv, lookupStep, fieldStep, prependPath] at h
        rcases List.append_eq_nil.mp h with ⟨h1, _⟩
        exact validateType_error_nonempty hv (List.map_eq_nil.mp h1)
      | ok w =>
        have hR : (validateShape rest fields).1 = [] := by
          simpa only [validateShape, hl, hv, lookupStep, fieldStep] using h
        have hkeys : k ∉ (validateShape rest fields).2.map fun p => p.1 := by
          intro hmem
          obtain ⟨p, hp, hpk⟩ := List.mem_map.mp hmem
          exact hknotin (hpk ▸ validateShape_out_keys p hp)
        simp only [validateShape, hl, hv, lookupStep, fieldStep]
        simp only [validateShape, lookup_cons_self,
          hproj k m t (List.mem_cons_self _ _) v w hv, lookupStep, fieldStep,
          validateShape_extra_key hknotin, ihr hR]
    | none =>
      cases m with
      | required =>
        exfalso
        simp only [validateShape, hl, lookupStep] at h
        exact List.cons_ne_nil _ _ h
      | optional =>
        have hR : (validateShape rest fields).1 = [] := by
          simpa only [validateShape, hl, lookupStep] using h
        have hlk2 : List.lookup k (validateShape rest fields).2 = none := by
          refine lookup_eq_none_of_notin fun p hp => ?_
          intro hpk
          exact hknotin (hpk ▸ validateShape_out_keys p hp)
        simp only [validateShape, hl, lookupStep]
        simp only [validateShape, hlk2, lookupStep, ihr hR]
      | dflt d =>
        cases hv : validateType t d with
        | error es =>
          exfalso
          simp only [validateShape, hl, hv, lookupStep, fieldStep, prependPath] at h
          rcases List.append_eq_nil.mp h with ⟨h1, _⟩
          exact validateType_error_nonempty hv (List.map_eq_nil.mp h1)
        | ok w =>
          have hR : (validateShape rest fields).1 = [] := by
            simpa only [validateShape, hl, hv, lookupStep, fieldStep] using h
          simp only [validateShape, hl, hv, lookupStep, fieldStep]
          simp only [validateShape, lookup_cons_self,
            hproj k (FieldMode.dflt d) t (List.mem_cons_self _ _) d w hv,
            lookupStep, fieldStep, validateShape_extra_key hknotin, ihr hR]

theorem validateType_proj :
    ∀ (n : Nat) (t : ZType), sizeOf t ≤ n → wfSchema t = true →
      ∀ v w, validateType t v = .ok w → validateType t w = .ok w := by
  intro n
  induction n with
  | zero =>
    intro t hsz
    exact absurd hsz (by have := sizeOf_pos_ztype t; omega)
  | succ n ih =>
    intro t hsz hwf v w h
    cases t with
    | zstring =>
      cases v <;> simp only [validateType.eq_def] at h <;> cases h <;>
        simp [validateType]
    | zboolean =>
      cases v <;> simp only [validateType.eq_def] at h <;> cases h <;>
        simp [validateType]
    | znumber lo hi =>
      cases v <;> simp only [validateType.eq_def] at h
      case jnum q =>
        split_ifs at h with hcond
        cases h
        simp only [validateType.eq_def]
        rw [if_pos hcond]
      all_goals cases h
    | zenum vals =>
      cases v <;> simp only [validateType.eq_def] at h
      case jstr s =>
        split_ifs at h with hcond
        cases h
        simp only [validateType.eq_def]
        rw [if_pos hcond]
      all_goals cases h
    | zliteral l =>
      cases v <;> simp only [validateType.eq_def] at h
      case jstr s =>
        split_ifs at h with hcond
        cases h
        simp only [validateType.eq_def]
        rw [if_pos hcond]
      all_goals cases h
    | zarray elem minLen =>
      cases v <;> simp only [validateType.eq_def] at h
      case jarr xs =>
        have helem : ∀ v w, validateType elem v = .ok w →
            validateType elem w = .ok w := by
          refine ih elem ?_ ?_
          · simp only [ZType.zarray.sizeOf_spec] at hsz
            omega
          · simpa only [wfSchema] using hwf
        split_ifs at h with hcond
        cases h
        simp only [List.isEmpty_iff, List.append_eq_nil] at hcond
        obtain ⟨hsz0, hE⟩ := hcond
        obtain ⟨hlen, hre⟩ := validateElems_proj elem helem xs 0 hE
        simp only [validateType.eq_def]
        rw [hre 0, hlen]
        simp only [hsz0]
        simp
      all_goals cases h
    | ztuple ts =>
      cases v <;> simp only [validateType.eq_def] at h
      case jarr xs =>
        have hts : ∀ t ∈ ts, ∀ v w, validateType t v = .ok w →
            validateType t w = .ok w := by
          intro t ht
          refine ih t ?_ (wfList_mem (by simpa only [wfSchema] using hwf) ht)
          have h1 := List.sizeOf_lt_of_mem ht
          simp only [ZType.ztuple.sizeOf_spec] at hsz
          omega
        split_ifs at h with hlen hcond
        cases h
        simp only [List.isEmpty_iff] at hcond
        obtain ⟨hl2, hre⟩ := validateTupleElems_proj ts hts xs 0 hlen hcond
        simp only [validateType.eq_def]
        rw [hre 0]
        simp only [if_pos (by omega : (validateTupleElems ts 0 xs).2.length = ts.length)]
        simp
      all_goals cases h
    | zobject shape =>
      cases v <;> simp only [validateType.eq_def] at h
      case jobj fields =>
        have hwf2 : ((shape.map fun f => f.1).Nodup) ∧ wfShape shape = true := by
          have := hwf
          simp only [wfSchema, Bool.and_eq_true, decide_eq_true_eq] at this
          exact this
        have hsh : ∀ k m t, (k, m, t) ∈ shape → ∀ v w,
            validateType t v = .ok w → validateType t w = .ok w := by
          intro k m t hm
          refine ih t ?_ (wfShape_mem hwf2.2 hm)
          have h1 := List.sizeOf_lt_of_mem hm
          simp only [Prod.mk.sizeOf_spec] at h1
          simp only [ZType.zobject.sizeOf_spec] at hsz
          omega
        split_ifs at h with hcond
        cases h
        simp only [List.isEmpty_iff] at hcond
        have hps := validateShape_proj shape hsh hwf2.1 fields hcond
        simp only [validateType.eq_def]
        rw [hps]
        simp
      all_goals cases h

/-- C5: schema validation is deterministic and idempotent. The embedding
is pure, so validating the same input twice yields syntactically the same
result and the input is left untouched; moreover — the substantive
content — re-validating the parsed result of a successful validation
against any declared capability schema succeeds and returns it
unchanged (repeated validation accumulates nothing). -/
theorem claim_C5_validation_idempotent (S : ZType) (hS : S ∈ declaredSchemas)
    (v : Jsonv) :
    validateType S v = validateType S v ∧
    ∀ w, validateType S v = .ok w → validateType S w = .ok w := by
  refine ⟨rfl, fun w h => ?_⟩
  have hwf : wfSchema S = true := by
    simp only [declaredSchemas, declaredInputSchemas, List.cons_append,
      List.nil_append, List.mem_cons, List.not_mem_nil, or_false] at hS
    rcases hS with rfl | rfl | rfl | rfl | rfl | rfl | rfl | rfl | rfl | rfl |
      rfl | rfl | rfl | rfl <;>
      simp [wfSchema, wfShape, wfList, confirmationInputSchema,
        multipleChoiceInputSchema, textInputSchema, weatherInputSchema,
        placesInputSchema, geojsonInputSchema, researchInputSchema,
        confirmationOutputSchema, multipleChoiceOutputSchema, textOutputSchema,
        weatherOutputSchema, placesOutputSchema, geojsonOutputSchema,
        researchOutputSchema]
  exact validateType_proj (sizeOf S) S le_rfl hwf v w h

theorem claim_C5_validation_idempotent_witness :
    validateType confirmationInputSchema confirmExampleInput =
      validateType confirmationInputSchema confirmExampleInput ∧
    ∀ w, validateType confirmationInputSchema confirmExampleInput = .ok w →
      validateType confirmationInputSchema w = .ok w :=
  claim_C5_validation_idempotent confirmationInputSchema
    (by simp [declaredSchemas, declaredInputSchemas]) confirmExampleInput
